import Mathlib

/-!
Verification model of the curation-enricher suggestion pipeline.

The definitions below are a shallow embedding of the Python sources:
  * `src/enricher/llm_claude_code.py` / `src/enricher/llm_service.py`
    (JSON extraction from model responses and the three generation methods;
    the post-transport logic of the two backends is textually identical,
    so one set of definitions models both),
  * `src/enricher/enrichment_engine.py` (suggestions, orchestration, batch),
  * the tenacity retry decorators used in `llm_service.py` and
    `datahub_client.py`.

Python data that matters to the claims is modelled exactly: JSON values,
dict insertion-order semantics, the exception classes distinguished by the
`except` clauses, and the exact control flow of each function.  I/O
transports (subprocess, HTTP) are modelled as oracles supplied by the
environment, since the claims quantify over their possible outcomes.
-/

namespace Enricher

/-- JSON values as produced by Python's `json.loads`.  Numbers are modelled
as exact rationals (every JSON numeral denotes a decimal rational); Python's
int/float distinction — which affects only the textual rendering of numeric
values via `str()` — is not tracked, and the nonfinite extensions
(`NaN`/`Infinity`) accepted by Python's parser are outside the model.
Objects are association lists in Python-dict insertion order with duplicate
keys already resolved (later value, first position), mirroring dict
construction in the CPython decoder. -/
inductive Json where
  | null : Json
  | bool : Bool → Json
  | num : ℚ → Json
  | str : String → Json
  | arr : List Json → Json
  | obj : List (String × Json) → Json

mutual

/-- Decidable equality on `Json`, written out by hand because the nested
occurrence of `List` defeats automatic derivation. -/
def jsonDecEq : (a b : Json) → Decidable (a = b)
  | .null, .null => isTrue rfl
  | .null, .bool _ => isFalse (fun h => Json.noConfusion h)
  | .null, .num _ => isFalse (fun h => Json.noConfusion h)
  | .null, .str _ => isFalse (fun h => Json.noConfusion h)
  | .null, .arr _ => isFalse (fun h => Json.noConfusion h)
  | .null, .obj _ => isFalse (fun h => Json.noConfusion h)
  | .bool _, .null => isFalse (fun h => Json.noConfusion h)
  | .bool a, .bool b =>
    match decEq a b with
    | isTrue h => isTrue (by rw [h])
    | isFalse h => isFalse (fun hh => h (Json.bool.inj hh))
  | .bool _, .num _ => isFalse (fun h => Json.noConfusion h)
  | .bool _, .str _ => isFalse (fun h => Json.noConfusion h)
  | .bool _, .arr _ => isFalse (fun h => Json.noConfusion h)
  | .bool _, .obj _ => isFalse (fun h => Json.noConfusion h)
  | .num _, .null => isFalse (fun h => Json.noConfusion h)
  | .num _, .bool _ => isFalse (fun h => Json.noConfusion h)
  | .num a, .num b =>
    match decEq a b with
    | isTrue h => isTrue (by rw [h])
    | isFalse h => isFalse (fun hh => h (Json.num.inj hh))
  | .num _, .str _ => isFalse (fun h => Json.noConfusion h)
  | .num _, .arr _ => isFalse (fun h => Json.noConfusion h)
  | .num _, .obj _ => isFalse (fun h => Json.noConfusion h)
  | .str _, .null => isFalse (fun h => Json.noConfusion h)
  | .str _, .bool _ => isFalse (fun h => Json.noConfusion h)
  | .str _, .num _ => isFalse (fun h => Json.noConfusion h)
  | .str a, .str b =>
    match decEq a b with
    | isTrue h => isTrue (by rw [h])
    | isFalse h => isFalse (fun hh => h (Json.str.inj hh))
  | .str _, .arr _ => isFalse (fun h => Json.noConfusion h)
  | .str _, .obj _ => isFalse (fun h => Json.noConfusion h)
  | .arr _, .null => isFalse (fun h => Json.noConfusion h)
  | .arr _, .bool _ => isFalse (fun h => Json.noConfusion h)
  | .arr _, .num _ => isFalse (fun h => Json.noConfusion h)
  | .arr _, .str _ => isFalse (fun h => Json.noConfusion h)
  | .arr a, .arr b =>
    match jsonListDecEq a b with
    | isTrue h => isTrue (by rw [h])
    | isFalse h => isFalse (fun hh => h (Json.arr.inj hh))
  | .arr _, .obj _ => isFalse (fun h => Json.noConfusion h)
  | .obj _, .null => isFalse (fun h => Json.noConfusion h)
  | .obj _, .bool _ => isFalse (fun h => Json.noConfusion h)
  | .obj _, .num _ => isFalse (fun h => Json.noConfusion h)
  | .obj _, .str _ => isFalse (fun h => Json.noConfusion h)
  | .obj _, .arr _ => isFalse (fun h => Json.noConfusion h)
  | .obj a, .obj b =>
    match jsonFieldsDecEq a b with
    | isTrue h => isTrue (by rw [h])
    | isFalse h => isFalse (fun hh => h (Json.obj.inj hh))

def jsonListDecEq : (a b : List Json) → Decidable (a = b)
  | [], [] => isTrue rfl
  | [], _ :: _ => isFalse (fun h => List.noConfusion h)
  | _ :: _, [] => isFalse (fun h => List.noConfusion h)
  | x :: xs, y :: ys =>
    match jsonDecEq x y with
    | isFalse h => isFalse (fun hh => h (List.cons.inj hh).1)
    | isTrue h1 =>
      match jsonListDecEq xs ys with
      | isTrue h2 => isTrue (by rw [h1, h2])
      | isFalse h2 => isFalse (fun hh => h2 (List.cons.inj hh).2)

def jsonFieldsDecEq : (a b : List (String × Json)) → Decidable (a = b)
  | [], [] => isTrue rfl
  | [], _ :: _ => isFalse (fun h => List.noConfusion h)
  | _ :: _, [] => isFalse (fun h => List.noConfusion h)
  | (k, v) :: xs, (l, w) :: ys =>
    match decEq k l with
    | isFalse h => isFalse (fun hh => h (congrArg Prod.fst (List.cons.inj hh).1))
    | isTrue hk =>
      match jsonDecEq v w with
      | isFalse h => isFalse (fun hh => h (congrArg Prod.snd (List.cons.inj hh).1))
      | isTrue hv =>
        match jsonFieldsDecEq xs ys with
        | isTrue ht => isTrue (by rw [hk, hv, ht])
        | isFalse h => isFalse (fun hh => h (List.cons.inj hh).2)

end

instance : DecidableEq Json := jsonDecEq

/-- Python dict assignment `d[k] = v`: an existing key keeps its position and
gets the new value; a new key is appended. -/
def insertKey (fs : List (String × Json)) (k : String) (v : Json) :
    List (String × Json) :=
  if fs.any (fun p => p.1 = k) then
    fs.map (fun p => if p.1 = k then (k, v) else p)
  else
    fs ++ [(k, v)]

/-- Python dict lookup `d.get(k)` / `d[k]` on the model's association lists. -/
def lookupKey (fs : List (String × Json)) (k : String) : Option Json :=
  (fs.find? (fun p => p.1 = k)).map Prod.snd

/-- JSON whitespace (the four characters skipped by Python's decoder). -/
def isJsonWs (c : Char) : Bool :=
  c = ' ' || c = '\t' || c = '\n' || c = '\r'

def skipWs (cs : List Char) : List Char :=
  cs.dropWhile isJsonWs

def isDigit (c : Char) : Bool := '0' ≤ c && c ≤ '9'

def digitVal (c : Char) : Nat := c.toNat - '0'.toNat

def isHexDigit (c : Char) : Bool :=
  isDigit c || ('a' ≤ c && c ≤ 'f') || ('A' ≤ c && c ≤ 'F')

def hexVal (c : Char) : Nat :=
  if isDigit c then digitVal c
  else if 'a' ≤ c && c ≤ 'f' then c.toNat - 'a'.toNat + 10
  else c.toNat - 'A'.toNat + 10

/-- Digits of a numeral accumulated into a natural number. -/
def digitsToNat (ds : List Char) : Nat :=
  ds.foldl (fun acc c => acc * 10 + digitVal c) 0

/-- Powers of ten as integers, written recursively so that kernel reduction
(used by `decide` on concrete inputs) never sticks on a power instance. -/
def pow10 : Nat → Int
  | 0 => 1
  | n + 1 => 10 * pow10 n

/-- Decidable equality on `Except` results (absent from the imported
libraries for arbitrary payloads). -/
instance {ε α : Type} [DecidableEq ε] [DecidableEq α] :
    DecidableEq (Except ε α) := fun a b =>
  match a, b with
  | .ok x, .ok y =>
    match decEq x y with
    | isTrue h => isTrue (by rw [h])
    | isFalse h => isFalse (fun hh => h (Except.ok.inj hh))
  | .ok _, .error _ => isFalse (fun h => Except.noConfusion h)
  | .error _, .ok _ => isFalse (fun h => Except.noConfusion h)
  | .error x, .error y =>
    match decEq x y with
    | isTrue h => isTrue (by rw [h])
    | isFalse h => isFalse (fun hh => h (Except.error.inj hh))

/-- Body of a JSON string after the opening quote, per CPython's strict
`scanstring`: the eight simple escapes and `\uXXXX` are decoded, raw control
characters below `0x20` are rejected.  Surrogate-pair recombination is not
modelled (no claim touches it). -/
def parseStringBody (acc : List Char) : List Char → Option (String × List Char)
  | [] => none
  | c :: rest =>
    if c = '"' then some (String.mk acc.reverse, rest)
    else if c = '\\' then
      match rest with
      | [] => none
      | e :: rest2 =>
        if e = '"' then parseStringBody ('"' :: acc) rest2
        else if e = '\\' then parseStringBody ('\\' :: acc) rest2
        else if e = '/' then parseStringBody ('/' :: acc) rest2
        else if e = 'b' then parseStringBody ('\x08' :: acc) rest2
        else if e = 'f' then parseStringBody ('\x0C' :: acc) rest2
        else if e = 'n' then parseStringBody ('\n' :: acc) rest2
        else if e = 'r' then parseStringBody ('\r' :: acc) rest2
        else if e = 't' then parseStringBody ('\t' :: acc) rest2
        else if e = 'u' then
          match rest2 with
          | h1 :: h2 :: h3 :: h4 :: rest3 =>
            if isHexDigit h1 && isHexDigit h2 && isHexDigit h3 && isHexDigit h4 then
              let code := ((hexVal h1 * 16 + hexVal h2) * 16 + hexVal h3) * 16 + hexVal h4
              parseStringBody (Char.ofNat code :: acc) rest3
            else none
          | _ => none
        else none
    else if c.toNat < 0x20 then none
    else parseStringBody (c :: acc) rest

/-- Optional fraction part `.[0-9]+` of a numeral (the decoder's regex group);
returns the fraction digits and the rest, or no digits when the group does
not match (a bare `.` is then left unconsumed). -/
def parseFrac (cs : List Char) : List Char × List Char :=
  match cs with
  | '.' :: rest =>
    let ds := rest.takeWhile isDigit
    if ds.isEmpty then ([], cs) else (ds, rest.dropWhile isDigit)
  | _ => ([], cs)

/-- Optional exponent part `[eE][-+]?[0-9]+` of a numeral; yields the signed
exponent, or `0` with nothing consumed when the group does not match. -/
def parseExp (cs : List Char) : Int × List Char :=
  match cs with
  | e :: '+' :: rest =>
    if e = 'e' || e = 'E' then parseExpDigits cs false rest else (0, cs)
  | e :: '-' :: rest =>
    if e = 'e' || e = 'E' then parseExpDigits cs true rest else (0, cs)
  | e :: rest =>
    if e = 'e' || e = 'E' then parseExpDigits cs false rest else (0, cs)
  | [] => (0, cs)
where
  parseExpDigits (orig : List Char) (negE : Bool) (rest : List Char) :
      Int × List Char :=
    let ds := rest.takeWhile isDigit
    if ds.isEmpty then (0, orig)
    else
      let n : Int := digitsToNat ds
      ((if negE then -n else n), rest.dropWhile isDigit)

/-- A JSON numeral per the decoder's `NUMBER_RE`
(`-?(0|[1-9][0-9]*)(\.[0-9]+)?([eE][-+]?[0-9]+)?`), evaluated exactly as a
rational.  As in the regex, an integer part `0` is not followed by further
digits (so `01` parses as `0` with `1` left over, which the caller then
rejects as trailing data). -/
def parseNumber (cs : List Char) : Option (ℚ × List Char) :=
  let (neg, cs1) :=
    match cs with
    | '-' :: rest => (true, rest)
    | _ => (false, cs)
  match cs1 with
  | [] => none
  | d :: rest =>
    if d = '0' then some (parseNumTail neg ['0'] rest)
    else if isDigit d then
      some (parseNumTail neg (d :: rest.takeWhile isDigit) (rest.dropWhile isDigit))
    else none
where
  parseNumTail (neg : Bool) (intDigits : List Char) (cs2 : List Char) :
      ℚ × List Char :=
    let (fds, cs3) := parseFrac cs2
    let (ex, cs4) := parseExp cs3
    let mant : Int := digitsToNat (intDigits ++ fds)
    let mant : Int := if neg then -mant else mant
    let q : ℚ :=
      if (fds.length : Int) ≤ ex then
        Rat.divInt (mant * pow10 (ex - fds.length).toNat) 1
      else
        Rat.divInt mant (pow10 ((fds.length : Int) - ex).toNat)
    (q, cs4)

mutual

/-- Fueled recursive-descent JSON value parser, positioned at the first
character of a value (leading whitespace already consumed).  Faithful to
CPython's decoder on finite input: literals, strict strings, exact numerals,
arrays and objects with no trailing commas.  The nonfinite constants
(`NaN`, `Infinity`, `-Infinity`), which Python parses to floats, are outside
the model. -/
def parseValue : Nat → List Char → Option (Json × List Char)
  | 0, _ => none
  | fuel + 1, cs =>
    match cs with
    | [] => none
    | c :: rest =>
      if c = '"' then
        (parseStringBody [] rest).map (fun p => (Json.str p.1, p.2))
      else if c = '\x7b' then
        match skipWs rest with
        | '\x7d' :: rest2 => some (Json.obj [], rest2)
        | cs2 => parseMembers fuel cs2 []
      else if c = '[' then
        match skipWs rest with
        | ']' :: rest2 => some (Json.arr [], rest2)
        | cs2 => parseItems fuel cs2 []
      else if c = 't' then
        match rest with
        | 'r' :: 'u' :: 'e' :: rest2 => some (Json.bool true, rest2)
        | _ => none
      else if c = 'f' then
        match rest with
        | 'a' :: 'l' :: 's' :: 'e' :: rest2 => some (Json.bool false, rest2)
        | _ => none
      else if c = 'n' then
        match rest with
        | 'u' :: 'l' :: 'l' :: rest2 => some (Json.null, rest2)
        | _ => none
      else
        (parseNumber cs).map (fun p => (Json.num p.1, p.2))

/-- Object-member loop: positioned at a key (a `"`), accumulating fields with
Python-dict assignment semantics; after each member expects `,` (next member)
or the closing brace. -/
def parseMembers : Nat → List Char → List (String × Json) →
    Option (Json × List Char)
  | 0, _, _ => none
  | fuel + 1, cs, acc =>
    match cs with
    | '"' :: rest =>
      match parseStringBody [] rest with
      | none => none
      | some (k, rest2) =>
        match skipWs rest2 with
        | ':' :: rest3 =>
          match parseValue fuel (skipWs rest3) with
          | none => none
          | some (v, rest4) =>
            match skipWs rest4 with
            | ',' :: rest5 => parseMembers fuel (skipWs rest5) (insertKey acc k v)
            | '\x7d' :: rest5 => some (Json.obj (insertKey acc k v), rest5)
            | _ => none
        | _ => none
    | _ => none

/-- Array-item loop: positioned at an item value; after each item expects `,`
(next item) or the closing bracket. -/
def parseItems : Nat → List Char → List Json → Option (Json × List Char)
  | 0, _, _ => none
  | fuel + 1, cs, acc =>
    match parseValue fuel cs with
    | none => none
    | some (v, rest) =>
      match skipWs rest with
      | ',' :: rest2 => parseItems fuel (skipWs rest2) (acc ++ [v])
      | ']' :: rest2 => some (Json.arr (acc ++ [v]), rest2)
      | _ => none

end

/-- `json.loads` on a character sequence: skip leading whitespace, parse one
value, and require that nothing but whitespace follows (`Extra data`
otherwise).  `none` models a raised `json.JSONDecodeError` (a `ValueError`). -/
def jsonLoads (cs : List Char) : Option Json :=
  match parseValue (2 * cs.length + 4) (skipWs cs) with
  | some (v, rest) => if (skipWs rest).isEmpty then some v else none
  | none => none

/-- Python's `\s` character class (ASCII range), also the default strip set
of `str.strip()`; non-ASCII whitespace is outside the model. -/
def isPyWs (c : Char) : Bool :=
  c = ' ' || c = '\t' || c = '\n' || c = '\r' || c = '\x0b' || c = '\x0c'

/-- `str.strip()`: whitespace removed from both ends. -/
def pyStrip (cs : List Char) : List Char :=
  ((cs.dropWhile isPyWs).reverse.dropWhile isPyWs).reverse

/-- Decimal rendering of a terminating rational: the smallest scaling of the
value to an integer determines the digits after the point.  Used only for the
rendering of numeric JSON values via `str()`; Python's shortest-roundtrip
float repr is approximated by exact decimal output here, and the int/float
distinction is not tracked (no claim observes numeric renderings). -/
def pyNumRepr (q : ℚ) : String :=
  if q.den = 1 then toString q.num
  else
    match (List.range 65).find? (fun k => (q * (10 : ℚ) ^ k).den = 1) with
    | some k =>
      let m : Int := (q * (10 : ℚ) ^ k).num
      let s := toString m.natAbs
      let s := if s.length ≤ k then
          String.mk (List.replicate (k + 1 - s.length) '0') ++ s
        else s
      (if m < 0 then "-" else "") ++ s.take (s.length - k) ++ "." ++ s.drop (s.length - k)
    | none => toString q

/-- Python `repr` of a string: quoted form.  Approximated with a fixed single
quote and no escaping (Python switches quote style and escapes specials; no
claim observes the rendering of container values). -/
def pyStrQuote (s : String) : String :=
  "'" ++ s ++ "'"

mutual

/-- Python `repr()` of a JSON-shaped value, as used inside `str()` of
containers. -/
def pyRepr : Json → String
  | .null => "None"
  | .bool true => "True"
  | .bool false => "False"
  | .num q => pyNumRepr q
  | .str s => pyStrQuote s
  | .arr xs => "[" ++ String.intercalate ", " (pyReprList xs) ++ "]"
  | .obj fs => "\x7b" ++ String.intercalate ", " (pyReprFields fs) ++ "\x7d"

def pyReprList : List Json → List String
  | [] => []
  | x :: xs => pyRepr x :: pyReprList xs

def pyReprFields : List (String × Json) → List String
  | [] => []
  | (k, v) :: fs => (pyStrQuote k ++ ": " ++ pyRepr v) :: pyReprFields fs

end

/-- Python `str()` of a JSON-shaped value: identity on strings, `repr`
otherwise. -/
def pyStr : Json → String
  | .str s => s
  | j => pyRepr j

/-- The backtick character (written via its code point). -/
def btick : Char := Char.ofNat 96

/-- Does the text begin with a triple-backtick marker? -/
def startsWithTicks (cs : List Char) : Bool :=
  List.isPrefixOf [btick, btick, btick] cs

/-- The literal characters `{` and `}` (via code points). -/
def obrace : Char := Char.ofNat 123

def cbrace : Char := Char.ofNat 125

/-- Body scan of the fence regex: the lazy group grows until the earliest
closing marker, with the greedy optional newline before it consumed when
present (so a final newline is excluded from the group). -/
def fenceBody (acc : List Char) : List Char → Option (List Char)
  | [] => none
  | c :: rest =>
    if c = '\n' && startsWithTicks rest then some acc.reverse
    else if startsWithTicks (c :: rest) then some acc.reverse
    else fenceBody (c :: acc) rest

/-- Match of `(?:json)?\s*\n?(.*?)\n?` + closing marker, positioned just after
an opening triple backtick: the optional `json` tag and greedy whitespace run
are consumed first (none of them can contain a backtick, so no backtracking
into the prefix is ever needed), then the lazy group runs to the earliest
closing marker. -/
def fenceAt (cs0 : List Char) : Option (List Char) :=
  let cs1 := if List.isPrefixOf ['j', 's', 'o', 'n'] cs0 then cs0.drop 4 else cs0
  let cs2 := cs1.dropWhile isPyWs
  let cs3 := match cs2 with
    | '\n' :: r => r
    | _ => cs2
  fenceBody [] cs3

/-- `re.search` with the fence pattern (DOTALL): starting positions are tried
left to right; a position matches when an opening triple backtick there is
followed, at some later point, by a closing one.  Returns the captured
group. -/
def fenceSearch : List Char → Option (List Char)
  | [] => none
  | c :: rest =>
    if startsWithTicks (c :: rest) then
      match fenceAt ((c :: rest).drop 3) with
      | some g => some g
      | none => fenceSearch rest
    else fenceSearch rest

/-- Strategy 2 of `_extract_json_from_response`: parse the stripped interior
of a fenced code block, when the fence pattern matches. -/
def strategyFence (cs : List Char) : Option Json :=
  match fenceSearch cs with
  | some g => jsonLoads (pyStrip g)
  | none => none

/-- The suffix of the text starting at the first occurrence of `c`
(`text.find` plus slicing). -/
def suffixFrom (c : Char) : List Char → Option (List Char)
  | [] => none
  | x :: rest => if x = c then some (x :: rest) else suffixFrom c rest

/-- The depth-tracking capture of `_extract_json_from_response`: starting at
an occurrence of the opening bracket, depth is incremented on each opening
and decremented on each closing bracket (string contents are not treated
specially); the capture ends at the character where depth returns to zero. -/
def captureDepth (sc ec : Char) : List Char → Int → List Char → Option (List Char)
  | [], _, _ => none
  | c :: rest, depth, acc =>
    if c = sc then captureDepth sc ec rest (depth + 1) (c :: acc)
    else if c = ec then
      if depth - 1 = 0 then some (c :: acc).reverse
      else captureDepth sc ec rest (depth - 1) (c :: acc)
    else captureDepth sc ec rest depth (c :: acc)

/-- One iteration of the bracket-pair loop of `_extract_json_from_response`:
find the first occurrence of the opening bracket, capture to depth zero, and
parse the captured range; any failure (no occurrence, no closing point, or a
parse error — the loop's `break`) yields nothing for this bracket kind. -/
def tryBracket (sc ec : Char) (cs : List Char) : Option Json :=
  match suffixFrom sc cs with
  | none => none
  | some suffix =>
    match captureDepth sc ec suffix 0 [] with
    | none => none
    | some captured => jsonLoads captured

/-- `_extract_json_from_response` (identical in `llm_claude_code.py` and
`llm_service.py`): direct parse, then fenced block, then the bracket-pair
loop in its source order — the object brackets `{`/`}` are always tried
before the array brackets `[`/`]`.  `none` models the final
`raise ValueError`. -/
def extractJson (cs : List Char) : Option Json :=
  match jsonLoads cs with
  | some v => some v
  | none =>
    match strategyFence cs with
    | some v => some v
    | none =>
      match tryBracket obrace cbrace cs with
      | some v => some v
      | none => tryBracket '[' ']' cs

/-- Modelled from the spec's wording of strategy 3 (claim C2): scan left to
right for the first occurrence of `{` or `[` — whichever bracket kind occurs
first in the text is tried first — and repeat for the other bracket kind if
the first search range fails to parse. -/
def bracketScanClaim (cs : List Char) : Option Json :=
  match List.findIdx? (fun c => c = obrace) cs, List.findIdx? (fun c => c = '[') cs with
  | none, none => none
  | some _, none => tryBracket obrace cbrace cs
  | none, some _ => tryBracket '[' ']' cs
  | some i, some j =>
    if i < j then
      match tryBracket obrace cbrace cs with
      | some v => some v
      | none => tryBracket '[' ']' cs
    else
      match tryBracket '[' ']' cs with
      | some v => some v
      | none => tryBracket obrace cbrace cs

/-- The amended wording of strategy 3: the object bracket kind `{` is always
scanned for first, regardless of which bracket kind occurs first in the text;
the array bracket kind `[` is tried only if the object scan yields no
parse. -/
def bracketScanAmended (cs : List Char) : Option Json :=
  match tryBracket obrace cbrace cs with
  | some v => some v
  | none => tryBracket '[' ']' cs

/-- The Python exception classes the services' `except` clauses distinguish. -/
inductive PyErr where
  | valueError
  | keyError
  | typeError
  | attributeError
  deriving Repr, DecidableEq

/-- `except (ValueError, KeyError, TypeError)` around a computation: those
three classes are caught and replaced by the fallback result; anything else
(notably `AttributeError`) propagates. -/
def catchVKT {α : Type} (x : Except PyErr α) (fallback : α) : Except PyErr α :=
  match x with
  | .error .valueError => .ok fallback
  | .error .keyError => .ok fallback
  | .error .typeError => .ok fallback
  | r => r

/-- `generate_column_descriptions`, response-processing part (identical in
both backends; the transport producing the response text is abstracted
away): a failed extraction raises `ValueError`, the one class caught there,
and a non-dict extracted value falls through — both return the empty
mapping.  A dict is projected with `str()` on keys and values; parsed JSON
object keys are already strings, so `str(k)` is the identity on them. -/
def generate_column_descriptions (response : String) :
    Except PyErr (List (String × String)) :=
  match extractJson response.data with
  | none => .ok []
  | some (Json.obj fs) => .ok (fs.map (fun p => (p.1, pyStr p.2)))
  | some _ => .ok []

/-- The membership test `item.get("confidence") in ("high", "medium")`:
tuple membership uses `==`, which selects exactly those two string values. -/
def confSelected : Option Json → Bool
  | some (Json.str s) => s = "high" || s = "medium"
  | _ => false

/-- The list comprehension of `detect_pii_columns`: per item the filter
evaluates `item.get("confidence")` — an `AttributeError` when the item is not
a mapping — and each selected item contributes `item["field_path"]` — a
`KeyError` when that key is absent.  The first raising item aborts the whole
comprehension. -/
def piiComprehension : List Json → Except PyErr (List Json)
  | [] => .ok []
  | item :: rest =>
    match item with
    | Json.obj fs =>
      if confSelected (lookupKey fs "confidence") then
        match lookupKey fs "field_path" with
        | some v => (piiComprehension rest).map (fun xs => v :: xs)
        | none => .error .keyError
      else piiComprehension rest
    | _ => .error .attributeError

/-- Projection of an extracted value by `detect_pii_columns`: the guard
`isinstance(parsed, dict) and "pii_columns" in parsed` falls through to
`return []` when it fails; otherwise `for item in parsed["pii_columns"]`
iterates a list's items, a string's characters or a dict's keys (characters
and keys are non-mappings, so a nonempty one raises `AttributeError` at
`item.get`), and any other value is not iterable (`TypeError`). -/
def piiFromParsed (parsed : Json) : Except PyErr (List Json) :=
  match parsed with
  | Json.obj fs =>
    match lookupKey fs "pii_columns" with
    | none => .ok []
    | some (Json.arr items) => piiComprehension items
    | some (Json.str s) => if s.isEmpty then .ok [] else .error .attributeError
    | some (Json.obj gs) => if gs.isEmpty then .ok [] else .error .attributeError
    | some _ => .error .typeError
  | _ => .ok []

/-- `detect_pii_columns`, response-processing part (identical in both
backends): the `try` block spans extraction and projection, with
`except (ValueError, KeyError, TypeError)` returning the empty list; an
`AttributeError` from a non-mapping record is not in the handled tuple and
propagates to the caller. -/
def detect_pii_columns (response : String) : Except PyErr (List Json) :=
  catchVKT
    (match extractJson response.data with
      | none => .error .valueError
      | some parsed => piiFromParsed parsed)
    []

/-- The list comprehension of `suggest_tags`: `item["tag"]` on a mapping
yields the value or `KeyError`; subscripting any non-mapping item with a
string raises `TypeError`. -/
def tagComprehension : List Json → Except PyErr (List Json)
  | [] => .ok []
  | Json.obj fs :: rest =>
    match lookupKey fs "tag" with
    | some v => (tagComprehension rest).map (fun xs => v :: xs)
    | none => .error .keyError
  | _ :: _ => .error .typeError

/-- Projection of an extracted value by `suggest_tags`: like the PII
projection, but iterated characters or keys raise `TypeError` (string
subscripting) rather than `AttributeError`, so every failure here is inside
the handled tuple. -/
def tagsFromParsed (parsed : Json) : Except PyErr (List Json) :=
  match parsed with
  | Json.obj fs =>
    match lookupKey fs "suggested_tags" with
    | none => .ok []
    | some (Json.arr items) => tagComprehension items
    | some (Json.str s) => if s.isEmpty then .ok [] else .error .typeError
    | some (Json.obj gs) => if gs.isEmpty then .ok [] else .error .typeError
    | some _ => .error .typeError
  | _ => .ok []

/-- `suggest_tags`, response-processing part (identical in both backends). -/
def suggest_tags (response : String) : Except PyErr (List Json) :=
  catchVKT
    (match extractJson response.data with
      | none => .error .valueError
      | some parsed => tagsFromParsed parsed)
    []

/-- One enrichment suggestion (`EnrichmentSuggestion.__init__`).  The engine
constructs suggestions from backend results at the interface's declared
types (`llm_base.py`: descriptions `Dict[str, str]`, PII columns
`List[str]`, tags `List[str]`), so paths and values are strings here;
`confidence` keeps its declared default `1.0`, the only value the engine
ever uses. -/
structure EnrichmentSuggestion where
  dataset_urn : String
  field_path : Option String
  suggestion_type : String
  suggested_value : String
  confidence : ℚ := 1
  deriving Repr, DecidableEq

/-- `EnrichmentSuggestion.to_dict`: the serialized dictionary, with its
keys in the source's insertion order. -/
def to_dict (s : EnrichmentSuggestion) : List (String × Json) :=
  [("dataset_urn", Json.str s.dataset_urn),
   ("field_path", (s.field_path.map Json.str).getD Json.null),
   ("suggestion_type", Json.str s.suggestion_type),
   ("suggested_value", Json.str s.suggested_value),
   ("confidence", Json.num s.confidence)]

/-- The three feature flags `enrich_dataset` consults (`config.py`). -/
structure EngineConfig where
  enable_column_descriptions : Bool := true
  enable_pii_detection : Bool := true
  enable_tag_suggestions : Bool := true

/-- What `enrich_dataset` reads off a fetched dataset: `dataset["name"]`,
`dataset.get("description", "")` and `schemaMetadata.fields` (the field
list is opaque to the engine and handed to the backend unchanged). -/
structure DatasetSchema where
  name : String
  description : String
  fields : List Json

/-- Pure outcome oracles for the engine's collaborators: per argument, the
result or raised exception of one call.  The claims quantify over the
collaborators' possible behaviours; the generation methods are typed at the
`LLMServiceBase` interface's declared signatures. -/
structure EngineEnv where
  get_dataset_schema : String → Except PyErr (Option DatasetSchema)
  generate_column_descriptions :
    String → List Json → Except PyErr (List (String × String))
  detect_pii_columns : String → List Json → Except PyErr (List String)
  suggest_tags : String → String → List Json → Except PyErr (List String)
  update_column_description :
    String → Option String → String → Except PyErr Bool

/-- The backend generation calls, recorded as an invocation trace. -/
inductive EngineCall where
  | descriptions
  | pii
  | tags
  deriving Repr, DecidableEq

/-- The column-description task of `enrich_dataset`: when its feature flag
is on, call the backend and turn each returned `(field_path, description)`
pair into a `description` suggestion; a raised exception propagates. -/
def taskDescriptions (env : EngineEnv) (cfg : EngineConfig)
    (dataset_urn : String) (d : DatasetSchema) :
    Except PyErr (List EnrichmentSuggestion × List EngineCall) :=
  if cfg.enable_column_descriptions then
    match env.generate_column_descriptions d.name d.fields with
    | .error e => .error e
    | .ok descs =>
      .ok (descs.map (fun kv =>
        ({ dataset_urn, field_path := some kv.1,
           suggestion_type := "description",
           suggested_value := kv.2 } : EnrichmentSuggestion)),
        [EngineCall.descriptions])
  else .ok ([], [])

/-- The sensitive-column task of `enrich_dataset`: when its feature flag is
on, call the backend and turn each returned field path into a `tag`
suggestion with value `"PII"` carrying that path. -/
def taskPii (env : EngineEnv) (cfg : EngineConfig)
    (dataset_urn : String) (d : DatasetSchema) :
    Except PyErr (List EnrichmentSuggestion × List EngineCall) :=
  if cfg.enable_pii_detection then
    match env.detect_pii_columns d.name d.fields with
    | .error e => .error e
    | .ok pii =>
      .ok (pii.map (fun fp =>
        ({ dataset_urn, field_path := some fp,
           suggestion_type := "tag",
           suggested_value := "PII" } : EnrichmentSuggestion)),
        [EngineCall.pii])
  else .ok ([], [])

/-- The dataset-tag task of `enrich_dataset`: when its feature flag is on,
call the backend and turn each returned tag into a dataset-level `tag`
suggestion with no field path. -/
def taskTags (env : EngineEnv) (cfg : EngineConfig)
    (dataset_urn : String) (d : DatasetSchema) :
    Except PyErr (List EnrichmentSuggestion × List EngineCall) :=
  if cfg.enable_tag_suggestions then
    match env.suggest_tags d.name d.description d.fields with
    | .error e => .error e
    | .ok tags =>
      .ok (tags.map (fun t =>
        ({ dataset_urn, field_path := none,
           suggestion_type := "tag",
           suggested_value := t } : EnrichmentSuggestion)),
        [EngineCall.tags])
  else .ok ([], [])

/-- `EnrichmentEngine.enrich_dataset`: fetch the schema (an absent/falsy
dataset returns the empty list), return the empty list when the field list
is empty, then run the three flag-gated tasks in source order, appending
description suggestions, then PII tag suggestions, then dataset-level tag
suggestions.  Each awaited call's exception propagates (modelled by the
explicit `.error` cases, Python's uncaught-exception flow); the second
component instruments the model with the backend calls made. -/
def enrich_dataset (env : EngineEnv) (cfg : EngineConfig) (dataset_urn : String) :
    Except PyErr (List EnrichmentSuggestion × List EngineCall) :=
  match env.get_dataset_schema dataset_urn with
  | .error e => .error e
  | .ok none => .ok ([], [])
  | .ok (some d) =>
    if d.fields.isEmpty then .ok ([], [])
    else
      match taskDescriptions env cfg dataset_urn d with
      | .error e => .error e
      | .ok (s1, c1) =>
        match taskPii env cfg dataset_urn d with
        | .error e => .error e
        | .ok (s2, c2) =>
          match taskTags env cfg dataset_urn d with
          | .error e => .error e
          | .ok (s3, c3) => .ok (s1 ++ s2 ++ s3, c1 ++ c2 ++ c3)

/-- The per-id result the batch loop records: the suggestion list on
success, the empty list when `enrich_dataset` raised (`except Exception`). -/
def resolveEnrich (env : EngineEnv) (cfg : EngineConfig) (urn : String) :
    List EnrichmentSuggestion :=
  match enrich_dataset env cfg urn with
  | .ok r => r.1
  | .error _ => []

/-- Python dict assignment `results[urn] = ...` on the batch mapping. -/
def insertResult (rs : List (String × List EnrichmentSuggestion)) (k : String)
    (v : List EnrichmentSuggestion) : List (String × List EnrichmentSuggestion) :=
  if rs.any (fun p => p.1 = k) then
    rs.map (fun p => if p.1 = k then (k, v) else p)
  else rs ++ [(k, v)]

/-- `EnrichmentEngine.enrich_datasets_batch`: iterate the ids in order,
recording each id's outcome with every raised exception caught and replaced
by the empty list.  The function's totality is the model of "no exception
escapes the batch". -/
def enrich_datasets_batch (env : EngineEnv) (cfg : EngineConfig)
    (urns : List String) : List (String × List EnrichmentSuggestion) :=
  urns.foldl (fun rs urn => insertResult rs urn (resolveEnrich env cfg urn)) []

/-- The catalog write-back operations of `datahub_client.py`, recorded as a
trace. -/
inductive WriteCall where
  | updateColumnDescription (dataset_urn : String) (field_path : Option String)
      (description : String)
  | addTagToColumn (dataset_urn : String) (field_path : Option String)
      (tag_urn : String)
  deriving Repr, DecidableEq

/-- `EnrichmentEngine.apply_suggestion`: kind "description" dispatches to the
client's `update_column_description`, with any raised exception caught to
`False`; kind "tag" is an unimplemented TODO that logs and returns `True`
without any client call; any other kind logs a warning and returns `False`.
The second component records the write-back calls made. -/
def apply_suggestion (env : EngineEnv) (s : EnrichmentSuggestion) :
    Bool × List WriteCall :=
  if s.suggestion_type = "description" then
    match env.update_column_description s.dataset_urn s.field_path s.suggested_value with
    | .ok b =>
      (b, [WriteCall.updateColumnDescription s.dataset_urn s.field_path s.suggested_value])
    | .error _ =>
      (false, [WriteCall.updateColumnDescription s.dataset_urn s.field_path s.suggested_value])
  else if s.suggestion_type = "tag" then (true, [])
  else (false, [])

/-- The field paths present in a fetched column set: the `fieldPath` string
of each schema field object (the shape requested by the GraphQL query in
`datahub_client.py`). -/
def fieldPathsOf (fields : List Json) : List String :=
  fields.filterMap (fun j =>
    match j with
    | Json.obj fs =>
     match lookupKey fs "fieldPath" with
      | some (Json.str s) => some s
      | _ => none
    | _ => none)

/-- tenacity `wait_exponential(multiplier, min, max)`: the wait after the
`n`-th failed attempt is `multiplier * 2^(n-1)`, clamped into
`[max(0, min), max]`. -/
def waitExponential (multiplier minW maxW : ℚ) (n : Nat) : ℚ :=
  max (max 0 minW) (min (multiplier * 2 ^ (n - 1)) maxW)

/-- The wait schedule configured at every retry site of the source
(`llm_service.py` three times, `datahub_client.py` once):
`wait_exponential(multiplier=1, min=2, max=10)`. -/
def sourceWait (n : Nat) : ℚ := waitExponential 1 2 10 n

/-- tenacity `retry(stop=stop_after_attempt(..), reraise=True)` around an
operation whose `k`-th invocation has outcome `op k`, with `remaining`
further attempts allowed after the current one: the first success is
returned; once attempts are exhausted the final attempt's outcome — with
`reraise=True`, its exception unchanged — is returned.  The second component
is the number of attempts made. -/
def retryGo {E A : Type} (op : Nat → Except E A) (k : Nat) :
    Nat → Except E A × Nat
  | 0 => (op k, k)
  | remaining + 1 =>
    match op k with
    | .ok a => (.ok a, k)
    | .error _ => retryGo op (k + 1) remaining

/-- The decorated call: `stop_after_attempt(maxAttempts)` allows
`maxAttempts` invocations in total. -/
def retryCall {E A : Type} (maxAttempts : Nat) (op : Nat → Except E A) :
    Except E A × Nat :=
  retryGo op 1 (maxAttempts - 1)

/-- An environment whose collaborators all succeed with trivial results;
used to exercise `apply_suggestion` and the empty-schema paths on concrete
inputs. -/
def envNoop : EngineEnv where
  get_dataset_schema := fun _ => .ok none
  generate_column_descriptions := fun _ _ => .ok []
  detect_pii_columns := fun _ _ => .ok []
  suggest_tags := fun _ _ _ => .ok []
  update_column_description := fun _ _ _ => .ok true

/-- An environment whose sensitive-column detection names a column that is
not part of the fetched schema (the backend is free to do so: its paths come
from model output). -/
def envUnvalidated : EngineEnv where
  get_dataset_schema := fun _ =>
    .ok (some { name := "ds", description := "",
                fields := [Json.obj [("fieldPath", Json.str "real_col")]] })
  generate_column_descriptions := fun _ _ => .ok []
  detect_pii_columns := fun _ _ => .ok ["bogus_col"]
  suggest_tags := fun _ _ _ => .ok []
  update_column_description := fun _ _ _ => .ok true

/-- An environment where the catalog lookup raises for the id "missing" and
succeeds for every other id; description generation suggests one column
description.  Used to exercise batch failure isolation on a concrete run. -/
def envBatch : EngineEnv where
  get_dataset_schema := fun urn =>
    if urn = "missing" then .error .valueError
    else .ok (some { name := urn, description := "",
                     fields := [Json.obj [("fieldPath", Json.str "c1")]] })
  generate_column_descriptions := fun _ _ => .ok [("c1", "a column")]
  detect_pii_columns := fun _ _ => .ok []
  suggest_tags := fun _ _ _ => .ok []
  update_column_description := fun _ _ _ => .ok true

/-- An environment whose schema fetch yields a dataset with an empty field
list. -/
def envEmptySchema : EngineEnv where
  get_dataset_schema := fun _ =>
    .ok (some { name := "empty", description := "", fields := [] })
  generate_column_descriptions := fun _ _ => .ok [("ghost", "never used")]
  detect_pii_columns := fun _ _ => .ok ["ghost"]
  suggest_tags := fun _ _ _ => .ok ["ghost"]
  update_column_description := fun _ _ _ => .ok true

/-- A concrete operation for exercising the retry policy: it fails on the
first attempt and succeeds on the second. -/
def opSecondTry : Nat → Except String Nat :=
  fun n => if n = 2 then .ok 5 else .error "boom"

/-- C6: given the response envelope
`{"pii_columns":[{"field_path":"ssn","confidence":"high"},{"field_path":"notes","confidence":"low"}]}`,
sensitive-column detection (`detect_pii_columns`, identical in both
backends) returns exactly the field paths whose confidence is `high` or
`medium` — here exactly `"ssn"`, the low-confidence record excluded. -/
theorem c6_pii_confidence_filter :
    detect_pii_columns
        "\x7b\"pii_columns\":[\x7b\"field_path\":\"ssn\",\"confidence\":\"high\"\x7d,\x7b\"field_path\":\"notes\",\"confidence\":\"low\"\x7d]\x7d"
      = .ok [Json.str "ssn"] := by
  decide

/-- C2 counterexample: on the text `[1,2] {"a": 3}` strategies 1 and 2 both
fail, and the first bracket occurrence in the text is `[`; the claimed scan
(first occurrence of `{` or `[` first) yields the array `[1,2]`, but the
extractor in the source yields the object `{"a": 3}` — its loop always tries
the `{`/`}` pair first, regardless of position. -/
theorem c2_first_occurrence_counterexample :
    jsonLoads "[1,2] \x7b\"a\": 3\x7d".data = none ∧
    strategyFence "[1,2] \x7b\"a\": 3\x7d".data = none ∧
    bracketScanClaim "[1,2] \x7b\"a\": 3\x7d".data
      = some (Json.arr [Json.num 1, Json.num 2]) ∧
    extractJson "[1,2] \x7b\"a\": 3\x7d".data
      = some (Json.obj [("a", Json.num 3)]) ∧
    extractJson "[1,2] \x7b\"a\": 3\x7d".data
      ≠ bracketScanClaim "[1,2] \x7b\"a\": 3\x7d".data := by
  refine ⟨by decide, by decide, by decide, by decide, ?_⟩
  decide

/-- C2 (amended): for every input text on which direct parsing (strategy 1)
and fenced-block parsing (strategy 2) both fail, the extractor runs the
bracket scan with the object bracket kind `{` always tried first — scanning
from the first `{` and tracking nesting depth character by character until
depth returns to zero, parsing the captured substring — and only if that
scan yields no parse does it repeat the procedure for `[`; the first
strategy to succeed determines the result. -/
theorem c2_bracket_scan_amended (cs : List Char)
    (h1 : jsonLoads cs = none) (h2 : strategyFence cs = none) :
    extractJson cs = bracketScanAmended cs := by
  unfold extractJson bracketScanAmended
  rw [h1, h2]

/-- Witness for C2 (amended) at the spec's own example text. -/
theorem c2_bracket_scan_amended_witness :
    jsonLoads "Here is the answer: \x7b\"a\": [1,2]\x7d -- hope that helps".data = none ∧
    strategyFence "Here is the answer: \x7b\"a\": [1,2]\x7d -- hope that helps".data = none ∧
    extractJson "Here is the answer: \x7b\"a\": [1,2]\x7d -- hope that helps".data
      = bracketScanAmended "Here is the answer: \x7b\"a\": [1,2]\x7d -- hope that helps".data :=
  ⟨by decide, by decide,
    c2_bracket_scan_amended _ (by decide) (by decide)⟩

/-- C5 counterexample: the serialized keys of a concrete suggestion are
`dataset_urn, field_path, suggestion_type, suggested_value, confidence`,
not the claimed `dataset_id, field_path, kind, value, confidence`. -/
theorem c5_serialized_keys_counterexample :
    (to_dict { dataset_urn := "urn:x", field_path := none,
               suggestion_type := "tag", suggested_value := "PII" }).map Prod.fst
      = ["dataset_urn", "field_path", "suggestion_type", "suggested_value",
         "confidence"] ∧
    (to_dict { dataset_urn := "urn:x", field_path := none,
               suggestion_type := "tag", suggested_value := "PII" }).map Prod.fst
      ≠ ["dataset_id", "field_path", "kind", "value", "confidence"] := by
  exact ⟨rfl, by decide⟩

/-- C5 (amended): every suggestion serializes to an object with exactly the
five fields `dataset_urn`, `field_path` (nullable), `suggestion_type`,
`suggested_value` and `confidence`, in that order and with no others, each
holding the corresponding attribute. -/
theorem c5_serialization_shape (s : EnrichmentSuggestion) :
    (to_dict s).map Prod.fst
      = ["dataset_urn", "field_path", "suggestion_type", "suggested_value",
         "confidence"] ∧
    lookupKey (to_dict s) "dataset_urn" = some (Json.str s.dataset_urn) ∧
    lookupKey (to_dict s) "field_path"
      = some ((s.field_path.map Json.str).getD Json.null) ∧
    lookupKey (to_dict s) "suggestion_type" = some (Json.str s.suggestion_type) ∧
    lookupKey (to_dict s) "suggested_value" = some (Json.str s.suggested_value) ∧
    lookupKey (to_dict s) "confidence" = some (Json.num s.confidence) := by
  exact ⟨rfl, rfl, rfl, rfl, rfl, rfl⟩

/-- C9 counterexample: applying a concrete tag suggestion returns `True`
while making no catalog write-back call at all — in particular it does not
dispatch to the tag write-back (`add_tag_to_column`), contradicting the
claimed kind-matched dispatch for tag suggestions. -/
theorem c9_tag_no_writeback_counterexample :
    apply_suggestion envNoop
        { dataset_urn := "urn:d", field_path := some "c",
          suggestion_type := "tag", suggested_value := "PII" }
      = (true, []) ∧
    ¬ ∃ u fp t, WriteCall.addTagToColumn u fp t ∈
        (apply_suggestion envNoop
          { dataset_urn := "urn:d", field_path := some "c",
            suggestion_type := "tag", suggested_value := "PII" }).2 := by
  refine ⟨by decide, ?_⟩
  rintro ⟨u, fp, t, hm⟩
  simp [apply_suggestion, envNoop] at hm

/-- C9 (amended): `apply_suggestion` always returns a boolean and never
throws; a `description` suggestion dispatches to the client's
`update_column_description` (its result returned, any raised exception
caught to `False`); a `tag` suggestion returns `True` without invoking any
write-back (tag application is an unimplemented TODO); any unrecognized
kind returns `False` without any call. -/
theorem c9_apply_dispatch (env : EngineEnv) (s : EnrichmentSuggestion) :
    (s.suggestion_type = "description" →
      (apply_suggestion env s).2
        = [WriteCall.updateColumnDescription s.dataset_urn s.field_path
            s.suggested_value] ∧
      ((∃ b, env.update_column_description s.dataset_urn s.field_path
              s.suggested_value = .ok b ∧ (apply_suggestion env s).1 = b) ∨
       (∃ e, env.update_column_description s.dataset_urn s.field_path
              s.suggested_value = .error e ∧ (apply_suggestion env s).1 = false))) ∧
    (s.suggestion_type = "tag" → apply_suggestion env s = (true, [])) ∧
    (s.suggestion_type ≠ "description" → s.suggestion_type ≠ "tag" →
      apply_suggestion env s = (false, [])) := by
  refine ⟨fun hd => ?_, fun ht => ?_, fun hnd hnt => ?_⟩
  · cases hu : env.update_column_description s.dataset_urn s.field_path
        s.suggested_value with
    | ok b => exact ⟨by simp [apply_suggestion, hd, hu], Or.inl ⟨b, rfl,
        by simp [apply_suggestion, hd, hu]⟩⟩
    | error e => exact ⟨by simp [apply_suggestion, hd, hu], Or.inr ⟨e, rfl,
        by simp [apply_suggestion, hd, hu]⟩⟩
  · have hnd : s.suggestion_type ≠ "description" := by
      rw [ht]; decide
    simp [apply_suggestion, hnd, ht]
  · simp [apply_suggestion, hnd, hnt]

/-- Witness for C9 (amended): the three dispatch cases at concrete
suggestions under the trivial environment. -/
theorem c9_apply_dispatch_witness :
    apply_suggestion envNoop
        { dataset_urn := "urn:d", field_path := some "c",
          suggestion_type := "tag", suggested_value := "x" }
      = (true, []) ∧
    apply_suggestion envNoop
        { dataset_urn := "urn:d", field_path := some "c",
          suggestion_type := "mystery", suggested_value := "x" }
      = (false, []) ∧
    (apply_suggestion envNoop
        { dataset_urn := "urn:d", field_path := some "c",
          suggestion_type := "description", suggested_value := "x" }).2
      = [WriteCall.updateColumnDescription "urn:d" (some "c") "x"] :=
  ⟨(c9_apply_dispatch envNoop _).2.1 rfl,
   (c9_apply_dispatch envNoop _).2.2 (by decide) (by decide),
   ((c9_apply_dispatch envNoop _).1 rfl).1⟩

/-- C8: under the retry configuration used at every decorated site
(`stop_after_attempt(3)`, `wait_exponential(multiplier=1, min=2, max=10)`,
`reraise=True` — the remote-API inference calls and the catalog GraphQL
call), an operation is attempted at most 3 times; a first- or second-attempt
success ends the retries; if all three attempts fail the third attempt's
failure is re-raised unchanged; and the wait after the `n`-th failed attempt
is the exponential `2^(n-1)`, clamped below by 2 and above by 10 (hence
nondecreasing, and exactly the exponential whenever it lies within the
bounds). -/
theorem c8_retry_policy {E A : Type} (op : Nat → Except E A) :
    (retryCall 3 op).2 ≤ 3 ∧
    (∀ a, op 1 = .ok a → retryCall 3 op = (.ok a, 1)) ∧
    (∀ e1 a, op 1 = .error e1 → op 2 = .ok a → retryCall 3 op = (.ok a, 2)) ∧
    (∀ e1 e2 e3, op 1 = .error e1 → op 2 = .error e2 → op 3 = .error e3 →
      retryCall 3 op = (.error e3, 3)) ∧
    (∀ n, sourceWait n = max 2 (min (2 ^ (n - 1)) 10)) ∧
    (∀ n, 2 ≤ sourceWait n ∧ sourceWait n ≤ 10) ∧
    (∀ n, sourceWait n ≤ sourceWait (n + 1)) ∧
    (∀ n, 2 ≤ (2 : ℚ) ^ (n - 1) → (2 : ℚ) ^ (n - 1) ≤ 10 →
      sourceWait n = 2 ^ (n - 1)) := by
  have hw : ∀ n, sourceWait n = max 2 (min ((2 : ℚ) ^ (n - 1)) 10) := by
    intro n
    unfold sourceWait waitExponential
    norm_num
  refine ⟨?_, fun a h1 => ?_, fun e1 a h1 h2 => ?_, fun e1 e2 e3 h1 h2 h3 => ?_,
    hw, fun n => ?_, fun n => ?_, fun n h2 h10 => ?_⟩
  · unfold retryCall retryGo
    cases h1 : op 1 with
    | ok a => simp
    | error e =>
      simp only [h1]
      unfold retryGo
      cases h2 : op 2 with
      | ok a => simp
      | error e2 => simp [retryGo]
  · unfold retryCall retryGo
    rw [h1]
  · unfold retryCall retryGo
    rw [h1]
    unfold retryGo
    rw [h2]
  · unfold retryCall retryGo
    rw [h1]
    unfold retryGo
    rw [h2]
    unfold retryGo
    rw [h3]
  · constructor
    · rw [hw]; exact le_max_left _ _
    · rw [hw]
      exact max_le (by norm_num) (min_le_right _ _)
  · rw [hw, hw]
    refine max_le_max le_rfl (min_le_min ?_ le_rfl)
    exact pow_le_pow_right₀ (by norm_num) (by omega)
  · rw [hw, min_eq_left h10, max_eq_right h2]

/-- Witness for C8 at a concrete operation that fails once then succeeds:
two attempts are made, the second's result is returned, and the first wait
is 2. -/
theorem c8_retry_policy_witness :
    retryCall 3 opSecondTry = (.ok 5, 2) ∧ sourceWait 1 = 2 :=
  ⟨(c8_retry_policy opSecondTry).2.2.1 "boom" 5 rfl rfl,
   by rw [(c8_retry_policy opSecondTry).2.2.2.2.1 1]; norm_num⟩

/-- Reduction of the `Except` monad's bind on a success (helper). -/
theorem except_bind_ok {ε α β : Type} (a : α) (f : α → Except ε β) :
    (Except.ok a : Except ε α) >>= f = f a := rfl

/-- Reduction of the `Except` monad's bind on a failure (helper). -/
theorem except_bind_error {ε α β : Type} (e : ε) (f : α → Except ε β) :
    (Except.error e : Except ε α) >>= f = Except.error e := rfl

/-- Reduction of the `Except` monad's map on a success (helper). -/
theorem except_map_ok {ε α β : Type} (f : α → β) (a : α) :
    f <$> (Except.ok a : Except ε α) = Except.ok (f a) := rfl

/-- Reduction of the `Except` monad's map on a failure (helper). -/
theorem except_map_error {ε α β : Type} (f : α → β) (e : ε) :
    f <$> (Except.error e : Except ε α) = Except.error e := rfl

/-- Reduction of the `Except` monad's pure (helper). -/
theorem except_pure {ε α : Type} (a : α) :
    (pure a : Except ε α) = Except.ok a := rfl

/-- C7: for a dataset id whose catalog lookup finds no entry, and for a
dataset whose fetched schema has zero columns, `enrich_dataset` returns the
empty suggestion list with an empty backend-call trace — no backend
generation call is invoked — and neither case is an error. -/
theorem c7_empty_cases (env : EngineEnv) (cfg : EngineConfig) (urn : String) :
    (env.get_dataset_schema urn = .ok none →
      enrich_dataset env cfg urn = .ok ([], [])) ∧
    (∀ d, env.get_dataset_schema urn = .ok (some d) → d.fields = [] →
      enrich_dataset env cfg urn = .ok ([], [])) := by
  constructor
  · intro h
    simp [enrich_dataset, h, except_bind_ok, except_pure]
  · intro d h hf
    simp [enrich_dataset, h, hf, except_bind_ok, except_pure]

/-- Witness for C7: the two empty cases at concrete environments (whose
backends would suggest nonempty results if they were consulted). -/
theorem c7_empty_cases_witness :
    enrich_dataset envNoop {} "urn:a" = .ok ([], []) ∧
    enrich_dataset envEmptySchema {} "urn:b" = .ok ([], []) :=
  ⟨(c7_empty_cases envNoop {} "urn:a").1 rfl,
   (c7_empty_cases envEmptySchema {} "urn:b").2
     { name := "empty", description := "", fields := [] } rfl rfl⟩

/-- The tag comprehension never raises `AttributeError`: every failure it
can produce is a `KeyError` or `TypeError`, both inside the handled tuple
(helper). -/
theorem tagComprehension_not_attr (items : List Json) :
    tagComprehension items ≠ .error .attributeError := by
  induction items with
  | nil => simp [tagComprehension]
  | cons head rest ih =>
    cases head with
    | obj fs =>
      simp only [tagComprehension]
      cases hlk : lookupKey fs "tag" with
      | none => simp
      | some v =>
        cases htc : tagComprehension rest with
        | ok xs => simp [Except.map]
        | error e =>
          have he : e ≠ PyErr.attributeError := fun h => ih (h ▸ htc)
          simp [Except.map, he]
    | null => simp [tagComprehension]
    | bool b => simp [tagComprehension]
    | num q => simp [tagComprehension]
    | str s => simp [tagComprehension]
    | arr xs => simp [tagComprehension]

/-- The tag projection never raises `AttributeError` (helper). -/
theorem tagsFromParsed_not_attr (p : Json) :
    tagsFromParsed p ≠ .error .attributeError := by
  cases p with
  | obj fs =>
    simp only [tagsFromParsed]
    cases hlk : lookupKey fs "suggested_tags" with
    | none => simp
    | some v =>
      cases v with
      | arr items => exact tagComprehension_not_attr items
      | str s =>
        show ¬ (if s.isEmpty = true then (Except.ok [] : Except PyErr (List Json))
            else .error .typeError) = .error .attributeError
        split <;> simp
      | obj gs =>
        show ¬ (if gs.isEmpty = true then (Except.ok [] : Except PyErr (List Json))
            else .error .typeError) = .error .attributeError
        split <;> simp
      | null => simp
      | bool b => simp
      | num q => simp
  | null => simp [tagsFromParsed]
  | bool b => simp [tagsFromParsed]
  | num q => simp [tagsFromParsed]
  | str s => simp [tagsFromParsed]
  | arr xs => simp [tagsFromParsed]

/-- The exception guard turns anything but an `AttributeError` into a
success (helper). -/
theorem catchVKT_not_attr_ok {α : Type} (x : Except PyErr α) (z : α)
    (h : x ≠ .error .attributeError) : ∃ r, catchVKT x z = .ok r := by
  cases x with
  | ok a => exact ⟨a, rfl⟩
  | error e =>
    cases e with
    | valueError => exact ⟨z, rfl⟩
    | keyError => exact ⟨z, rfl⟩
    | typeError => exact ⟨z, rfl⟩
    | attributeError => exact absurd rfl h

/-- C3 counterexample: on the envelope `{"pii_columns": [7]}` — which does
not match the expected envelope of records with a field path and confidence
— sensitive-column detection neither returns its empty result nor contains
the failure: the non-mapping record raises `AttributeError` at `item.get`,
which is outside the handled `(ValueError, KeyError, TypeError)` tuple and
propagates to the caller. -/
theorem c3_attribute_error_escapes :
    detect_pii_columns "\x7b\"pii_columns\": [7]\x7d"
      = .error PyErr.attributeError ∧
    detect_pii_columns "\x7b\"pii_columns\": [7]\x7d" ≠ .ok [] := by
  exact ⟨by decide, by decide⟩

/-- C3 (amended): for every raw response text, description generation and
tag suggestion never propagate any error (they always return a result);
when extraction fails all three methods return their empty result; when the
extracted value is not a mapping all three return their empty result; and
sensitive-column detection returns its empty result when the envelope key
is absent.  (A `pii_columns` list containing a non-mapping record, however,
raises an uncaught `AttributeError` — see the counterexample.) -/
theorem c3_envelope_degradation (response : String) :
    (∃ r, generate_column_descriptions response = .ok r) ∧
    (∃ r, suggest_tags response = .ok r) ∧
    (extractJson response.data = none →
      generate_column_descriptions response = .ok [] ∧
      detect_pii_columns response = .ok [] ∧
      suggest_tags response = .ok []) ∧
    (∀ v, extractJson response.data = some v → (∀ fs, v ≠ Json.obj fs) →
      generate_column_descriptions response = .ok [] ∧
      detect_pii_columns response = .ok [] ∧
      suggest_tags response = .ok []) ∧
    (∀ fs, extractJson response.data = some (Json.obj fs) →
      lookupKey fs "pii_columns" = none →
      detect_pii_columns response = .ok []) := by
  refine ⟨?_, ?_, fun h => ?_, fun v hv hnobj => ?_, fun fs hv hlk => ?_⟩
  · unfold generate_column_descriptions
    cases h : extractJson response.data with
    | none => exact ⟨[], rfl⟩
    | some v =>
      cases v with
      | obj fs => exact ⟨_, rfl⟩
      | null => exact ⟨[], rfl⟩
      | bool b => exact ⟨[], rfl⟩
      | num q => exact ⟨[], rfl⟩
      | str s => exact ⟨[], rfl⟩
      | arr xs => exact ⟨[], rfl⟩
  · unfold suggest_tags
    cases h : extractJson response.data with
    | none => exact ⟨[], rfl⟩
    | some v => exact catchVKT_not_attr_ok _ _ (tagsFromParsed_not_attr v)
  · refine ⟨?_, ?_, ?_⟩
    · unfold generate_column_descriptions
      rw [h]
    · unfold detect_pii_columns
      rw [h]
      rfl
    · unfold suggest_tags
      rw [h]
      rfl
  · refine ⟨?_, ?_, ?_⟩
    · unfold generate_column_descriptions
      rw [hv]
      cases v with
      | obj fs => exact absurd rfl (hnobj fs)
      | null => rfl
      | bool b => rfl
      | num q => rfl
      | str s => rfl
      | arr xs => rfl
    · unfold detect_pii_columns
      rw [hv]
      cases v with
      | obj fs => exact absurd rfl (hnobj fs)
      | null => rfl
      | bool b => rfl
      | num q => rfl
      | str s => rfl
      | arr xs => rfl
    · unfold suggest_tags
      rw [hv]
      cases v with
      | obj fs => exact absurd rfl (hnobj fs)
      | null => rfl
      | bool b => rfl
      | num q => rfl
      | str s => rfl
      | arr xs => rfl
  · unfold detect_pii_columns
    rw [hv]
    simp [piiFromParsed, hlk, catchVKT]

/-- Witness for C3 (amended) at a response with no extractable structure. -/
theorem c3_envelope_degradation_witness :
    generate_column_descriptions "no structured data" = .ok [] ∧
    detect_pii_columns "no structured data" = .ok [] ∧
    suggest_tags "no structured data" = .ok [] :=
  (c3_envelope_degradation "no structured data").2.2.1 (by decide)

/-- A tag list containing a malformed record — a non-mapping, or a mapping
without the `tag` key — makes the whole comprehension raise a handled
`TypeError` or `KeyError` (helper). -/
theorem tagComprehension_malformed (items : List Json)
    (hbad : ∃ j ∈ items, (∀ gs, j ≠ Json.obj gs) ∨
      ∃ gs, j = Json.obj gs ∧ lookupKey gs "tag" = none) :
    tagComprehension items = .error .keyError ∨
    tagComprehension items = .error .typeError := by
  induction items with
  | nil =>
    rcases hbad with ⟨j, hj, _⟩
    exact absurd hj (List.not_mem_nil j)
  | cons head rest ih =>
    rcases hbad with ⟨j, hj, hmal⟩
    rcases List.mem_cons.mp hj with rfl | hjr
    · rcases hmal with hnobj | ⟨gs, rfl, hno⟩
      · cases j with
        | obj fs => exact absurd rfl (hnobj fs)
        | null => exact Or.inr rfl
        | bool b => exact Or.inr rfl
        | num q => exact Or.inr rfl
        | str s => exact Or.inr rfl
        | arr xs => exact Or.inr rfl
      · exact Or.inl (by simp [tagComprehension, hno])
    · cases head with
      | obj fs =>
        cases hlk : lookupKey fs "tag" with
        | none => exact Or.inl (by simp [tagComprehension, hlk])
        | some v =>
          rcases ih ⟨j, hjr, hmal⟩ with h | h
          · exact Or.inl (by simp [tagComprehension, hlk, h, Except.map])
          · exact Or.inr (by simp [tagComprehension, hlk, h, Except.map])
      | null => exact Or.inr rfl
      | bool b => exact Or.inr rfl
      | num q => exact Or.inr rfl
      | str s => exact Or.inr rfl
      | arr xs => exact Or.inr rfl

/-- When every record is a mapping and some record selected by the
confidence filter lacks the `field_path` key, the PII comprehension raises a
handled `KeyError` (helper). -/
theorem piiComprehension_keyError (items : List Json)
    (hobj : ∀ j ∈ items, ∃ gs, j = Json.obj gs)
    (hbad : ∃ gs, Json.obj gs ∈ items ∧
      confSelected (lookupKey gs "confidence") = true ∧
      lookupKey gs "field_path" = none) :
    piiComprehension items = .error .keyError := by
  induction items with
  | nil =>
    rcases hbad with ⟨gs, hm, _, _⟩
    exact absurd hm (List.not_mem_nil _)
  | cons head rest ih =>
    obtain ⟨fs, rfl⟩ := hobj head (List.mem_cons_self head rest)
    rcases hbad with ⟨gs, hm, hsel, hnone⟩
    rcases List.mem_cons.mp hm with heq | hmr
    · have hgs : gs = fs := Json.obj.inj heq
      subst hgs
      simp [piiComprehension, hsel, hnone]
    · have hrest := ih
        (fun j hj => hobj j (List.mem_cons_of_mem _ hj))
        ⟨gs, hmr, hsel, hnone⟩
      cases hc : confSelected (lookupKey fs "confidence") with
      | false => simpa [piiComprehension, hc] using hrest
      | true =>
        cases hlf : lookupKey fs "field_path" with
        | none => simp [piiComprehension, hc, hlf]
        | some v => simp [piiComprehension, hc, hlf, hrest, Except.map]

/-- C10 counterexample: a `pii_columns` list holding a well-formed record
followed by a non-mapping record does not collapse to the empty result —
the method raises `AttributeError`, which escapes the handler, and the
well-formed record is lost to the exception rather than to an empty
return. -/
theorem c10_non_mapping_record_raises :
    detect_pii_columns
        "\x7b\"pii_columns\": [\x7b\"field_path\": \"ssn\", \"confidence\": \"high\"\x7d, 7]\x7d"
      = .error PyErr.attributeError ∧
    detect_pii_columns
        "\x7b\"pii_columns\": [\x7b\"field_path\": \"ssn\", \"confidence\": \"high\"\x7d, 7]\x7d"
      ≠ .ok [] := by
  exact ⟨by decide, by decide⟩

/-- C10 (amended): in tag suggestion, a single malformed record in the
envelope's list — whether a non-mapping or a mapping without the `tag` key —
collapses the whole result to empty, discarding well-formed records in the
same response; in sensitive-column detection the same collapse happens for a
selected mapping record missing `field_path`, provided every record is a
mapping (a non-mapping record instead raises an uncaught `AttributeError` —
see the counterexample). -/
theorem c10_malformed_record_collapse :
    (∀ (response : String) fs items,
        extractJson response.data = some (Json.obj fs) →
        lookupKey fs "suggested_tags" = some (Json.arr items) →
        (∃ j ∈ items, (∀ gs, j ≠ Json.obj gs) ∨
          ∃ gs, j = Json.obj gs ∧ lookupKey gs "tag" = none) →
        suggest_tags response = .ok []) ∧
    (∀ (response : String) fs items,
        extractJson response.data = some (Json.obj fs) →
        lookupKey fs "pii_columns" = some (Json.arr items) →
        (∀ j ∈ items, ∃ gs, j = Json.obj gs) →
        (∃ gs, Json.obj gs ∈ items ∧
          confSelected (lookupKey gs "confidence") = true ∧
          lookupKey gs "field_path" = none) →
        detect_pii_columns response = .ok []) := by
  constructor
  · intro response fs items hext hlk hbad
    unfold suggest_tags
    rw [hext]
    rcases tagComprehension_malformed items hbad with h | h
    · simp [tagsFromParsed, hlk, h, catchVKT]
    · simp [tagsFromParsed, hlk, h, catchVKT]
  · intro response fs items hext hlk hobj hbad
    unfold detect_pii_columns
    rw [hext]
    have h := piiComprehension_keyError items hobj hbad
    simp [piiFromParsed, hlk, h, catchVKT]

/-- Witness for C10 (amended): a tag response whose list mixes a well-formed
record with a non-mapping one collapses to empty, and a PII response whose
only (mapping) record is selected but lacks `field_path` collapses to
empty. -/
theorem c10_malformed_record_collapse_witness :
    suggest_tags "\x7b\"suggested_tags\": [\x7b\"tag\": \"finance\"\x7d, 7]\x7d" = .ok [] ∧
    detect_pii_columns "\x7b\"pii_columns\": [\x7b\"confidence\": \"high\"\x7d]\x7d" = .ok [] :=
  ⟨c10_malformed_record_collapse.1 _
      [("suggested_tags", Json.arr [Json.obj [("tag", Json.str "finance")], Json.num 7])]
      [Json.obj [("tag", Json.str "finance")], Json.num 7]
      (by decide) (by decide)
      ⟨Json.num 7, by decide, Or.inl (fun gs h => Json.noConfusion h)⟩,
   c10_malformed_record_collapse.2 _
      [("pii_columns", Json.arr [Json.obj [("confidence", Json.str "high")]])]
      [Json.obj [("confidence", Json.str "high")]]
      (by decide) (by decide)
      (fun j hj => ⟨[("confidence", Json.str "high")], List.mem_singleton.mp hj⟩)
      ⟨[("confidence", Json.str "high")], by decide, by decide, by decide⟩⟩

/-- Every suggestion produced by the description task has kind
`description` and a present field path (helper). -/
theorem taskDescriptions_shape (env : EngineEnv) (cfg : EngineConfig)
    (urn : String) (d : DatasetSchema) (s1 : List EnrichmentSuggestion)
    (c1 : List EngineCall) (h : taskDescriptions env cfg urn d = .ok (s1, c1)) :
    ∀ s ∈ s1, s.suggestion_type = "description" ∧ s.field_path.isSome = true := by
  unfold taskDescriptions at h
  split at h
  · split at h
    · exact absurd h (by simp)
    · obtain ⟨h1, h2⟩ := Prod.mk.inj (Except.ok.inj h)
      subst h1
      intro s hs
      obtain ⟨kv, _, rfl⟩ := List.mem_map.mp hs
      exact ⟨rfl, rfl⟩
  · obtain ⟨h1, _⟩ := Prod.mk.inj (Except.ok.inj h)
    subst h1
    intro s hs
    exact absurd hs (List.not_mem_nil s)

/-- Every suggestion produced by the sensitive-column task has kind `tag`,
value `"PII"` and a present field path (helper). -/
theorem taskPii_shape (env : EngineEnv) (cfg : EngineConfig)
    (urn : String) (d : DatasetSchema) (s2 : List EnrichmentSuggestion)
    (c2 : List EngineCall) (h : taskPii env cfg urn d = .ok (s2, c2)) :
    ∀ s ∈ s2, s.suggestion_type = "tag" ∧ s.suggested_value = "PII" ∧
      s.field_path.isSome = true := by
  unfold taskPii at h
  split at h
  · split at h
    · exact absurd h (by simp)
    · obtain ⟨h1, h2⟩ := Prod.mk.inj (Except.ok.inj h)
      subst h1
      intro s hs
      obtain ⟨fp, _, rfl⟩ := List.mem_map.mp hs
      exact ⟨rfl, rfl, rfl⟩
  · obtain ⟨h1, _⟩ := Prod.mk.inj (Except.ok.inj h)
    subst h1
    intro s hs
    exact absurd hs (List.not_mem_nil s)

/-- Every suggestion produced by the dataset-tag task has kind `tag` and no
field path (helper). -/
theorem taskTags_shape (env : EngineEnv) (cfg : EngineConfig)
    (urn : String) (d : DatasetSchema) (s3 : List EnrichmentSuggestion)
    (c3 : List EngineCall) (h : taskTags env cfg urn d = .ok (s3, c3)) :
    ∀ s ∈ s3, s.suggestion_type = "tag" ∧ s.field_path = none := by
  unfold taskTags at h
  split at h
  · split at h
    · exact absurd h (by simp)
    · obtain ⟨h1, h2⟩ := Prod.mk.inj (Except.ok.inj h)
      subst h1
      intro s hs
      obtain ⟨t, _, rfl⟩ := List.mem_map.mp hs
      exact ⟨rfl, rfl⟩
  · obtain ⟨h1, _⟩ := Prod.mk.inj (Except.ok.inj h)
    subst h1
    intro s hs
    exact absurd hs (List.not_mem_nil s)

/-- C4 counterexample: with a backend that names `bogus_col` — a path not
present in the fetched column set, whose only entry is `real_col` — `enrich`
still emits the PII tag suggestion carrying `bogus_col`: the emitted field
path does not reference an entry of the original column metadata. -/
theorem c4_unvalidated_field_path :
    enrich_dataset envUnvalidated {} "urn:d"
      = .ok ([{ dataset_urn := "urn:d", field_path := some "bogus_col",
                suggestion_type := "tag", suggested_value := "PII",
                confidence := 1 }],
             [EngineCall.descriptions, EngineCall.pii, EngineCall.tags]) ∧
    ¬ "bogus_col" ∈ fieldPathsOf [Json.obj [("fieldPath", Json.str "real_col")]] := by
  exact ⟨by decide, by decide⟩

/-- C4 (amended): every successful `enrich_dataset` result splits, in
output order, into description suggestions, sensitive-column suggestions and
dataset-tag suggestions; the field path is absent exactly on the dataset-tag
part — description and PII suggestions always carry one — but the carried
path is whatever the backend named, not validated against the fetched
column set. -/
theorem c4_field_path_kinds (env : EngineEnv) (cfg : EngineConfig)
    (urn : String) (res : List EnrichmentSuggestion) (calls : List EngineCall)
    (h : enrich_dataset env cfg urn = .ok (res, calls)) :
    ∃ ds ps ts, res = ds ++ ps ++ ts ∧
      (∀ s ∈ ds, s.suggestion_type = "description" ∧ s.field_path.isSome = true) ∧
      (∀ s ∈ ps, s.suggestion_type = "tag" ∧ s.suggested_value = "PII" ∧
        s.field_path.isSome = true) ∧
      (∀ s ∈ ts, s.suggestion_type = "tag" ∧ s.field_path = none) := by
  unfold enrich_dataset at h
  split at h
  · exact absurd h (by simp)
  · obtain ⟨h1, _⟩ := Prod.mk.inj (Except.ok.inj h)
    refine ⟨[], [], [], by rw [← h1]; rfl, ?_, ?_, ?_⟩ <;>
      exact fun s hs => absurd hs (List.not_mem_nil s)
  · rename_i d hd
    split at h
    · obtain ⟨h1, _⟩ := Prod.mk.inj (Except.ok.inj h)
      refine ⟨[], [], [], by rw [← h1]; rfl, ?_, ?_, ?_⟩ <;>
        exact fun s hs => absurd hs (List.not_mem_nil s)
    · split at h
      · exact absurd h (by simp)
      · rename_i s1 c1 ht1
        split at h
        · exact absurd h (by simp)
        · rename_i s2 c2 ht2
          split at h
          · exact absurd h (by simp)
          · rename_i s3 c3 ht3
            obtain ⟨h1, _⟩ := Prod.mk.inj (Except.ok.inj h)
            exact ⟨s1, s2, s3, h1.symm,
              taskDescriptions_shape env cfg urn d s1 c1 ht1,
              taskPii_shape env cfg urn d s2 c2 ht2,
              taskTags_shape env cfg urn d s3 c3 ht3⟩

/-- Witness for C4 (amended) at a concrete environment whose backend names
an out-of-schema column. -/
theorem c4_field_path_kinds_witness :
    ∃ ds ps ts,
      [({ dataset_urn := "urn:d", field_path := some "bogus_col",
          suggestion_type := "tag", suggested_value := "PII",
          confidence := 1 } : EnrichmentSuggestion)] = ds ++ ps ++ ts ∧
      (∀ s ∈ ds, s.suggestion_type = "description" ∧ s.field_path.isSome = true) ∧
      (∀ s ∈ ps, s.suggestion_type = "tag" ∧ s.suggested_value = "PII" ∧
        s.field_path.isSome = true) ∧
      (∀ s ∈ ts, s.suggestion_type = "tag" ∧ s.field_path = none) :=
  c4_field_path_kinds envUnvalidated {} "urn:d"
    [{ dataset_urn := "urn:d", field_path := some "bogus_col",
       suggestion_type := "tag", suggested_value := "PII", confidence := 1 }]
    [EngineCall.descriptions, EngineCall.pii, EngineCall.tags] (by decide)

/-- Dict assignment with a key absent from the mapping appends the new
entry (helper). -/
theorem insertResult_fresh (rs : List (String × List EnrichmentSuggestion))
    (k : String) (v : List EnrichmentSuggestion)
    (h : ∀ p ∈ rs, p.1 ≠ k) : insertResult rs k v = rs ++ [(k, v)] := by
  have hc : rs.any (fun p => p.1 = k) = false := by
    rw [List.any_eq_false]
    intro p hp
    simp [h p hp]
  unfold insertResult
  rw [hc]
  simp

/-- The batch fold over distinct ids, started from a mapping containing
none of them, appends one entry per id in order (helper). -/
theorem enrich_batch_go (env : EngineEnv) (cfg : EngineConfig) :
    ∀ (urns : List String) (acc : List (String × List EnrichmentSuggestion)),
      urns.Nodup → (∀ u ∈ urns, ∀ p ∈ acc, p.1 ≠ u) →
      urns.foldl (fun rs urn => insertResult rs urn (resolveEnrich env cfg urn)) acc
        = acc ++ urns.map (fun u => (u, resolveEnrich env cfg u)) := by
  intro urns
  induction urns with
  | nil =>
    intro acc _ _
    simp
  | cons u rest ih =>
    intro acc hnd hfresh
    simp only [List.foldl_cons, List.map_cons]
    rw [insertResult_fresh acc u _
      (fun p hp => hfresh u (List.mem_cons_self u rest) p hp)]
    rw [ih (acc ++ [(u, resolveEnrich env cfg u)]) (List.Nodup.of_cons hnd) ?_]
    · simp
    · intro w hw p hp
      rcases List.mem_append.mp hp with hpa | hpu
      · exact hfresh w (List.mem_cons_of_mem u hw) p hpa
      · rw [List.mem_singleton.mp hpu]
        intro hcontra
        simp only [] at hcontra
        exact (List.nodup_cons.mp hnd).1 (hcontra ▸ hw)

/-- C1: over distinct input ids, the batch result has exactly one entry per
input id, in input order, and each entry is exactly that id's own
enrichment outcome — an id whose enrichment raised maps to the empty list
while every other id's entry is untouched by the failure — and the batch
function is total, so it never aborts early and no exception escapes it. -/
theorem c1_batch_failure_isolation (env : EngineEnv) (cfg : EngineConfig)
    (urns : List String) (h : urns.Nodup) :
    enrich_datasets_batch env cfg urns
      = urns.map (fun u => (u, resolveEnrich env cfg u)) ∧
    (∀ u, u ∈ urns →
      (u, resolveEnrich env cfg u) ∈ enrich_datasets_batch env cfg urns) ∧
    (∀ u e, u ∈ urns → enrich_dataset env cfg u = .error e →
      (u, ([] : List EnrichmentSuggestion)) ∈ enrich_datasets_batch env cfg urns) := by
  have hmain : enrich_datasets_batch env cfg urns
      = urns.map (fun u => (u, resolveEnrich env cfg u)) := by
    unfold enrich_datasets_batch
    rw [enrich_batch_go env cfg urns [] h
      (fun u _ p hp => absurd hp (List.not_mem_nil p))]
    simp
  refine ⟨hmain, fun u hu => ?_, fun u e hu he => ?_⟩
  · rw [hmain]
    exact List.mem_map_of_mem _ hu
  · rw [hmain]
    have hz : resolveEnrich env cfg u = [] := by
      unfold resolveEnrich
      rw [he]
    rw [← hz]
    exact List.mem_map_of_mem _ hu

/-- Witness for C1 at the spec's own batch example: the id "missing" (whose
catalog lookup raises) maps to the empty list while "a" and "b" are
enriched normally, with one entry per id in input order. -/
theorem c1_batch_failure_isolation_witness :
    enrich_datasets_batch envBatch {} ["a", "missing", "b"]
      = [("a", [{ dataset_urn := "a", field_path := some "c1",
                  suggestion_type := "description",
                  suggested_value := "a column", confidence := 1 }]),
         ("missing", []),
         ("b", [{ dataset_urn := "b", field_path := some "c1",
                  suggestion_type := "description",
                  suggested_value := "a column", confidence := 1 }])] :=
  ((c1_batch_failure_isolation envBatch {} ["a", "missing", "b"]
      (by decide)).1).trans (by decide)

end Enricher

